import Mathlib

/-!
Verification of the Message Aggregation & Model-Fallback Dispatch Engine of
the god-telephone server.  The definitions below are a shallow embedding of
`src/backend/server.js` (the primary revision) and of the alternative
revision in `src/unnamed/part_000` (the "Alt" definitions, whose
`chatWithFallback` differs).  Time is modelled as `Nat` milliseconds; the
text-generation provider is an oracle mapping a model id and the message
payload to an outcome.
-/

namespace GodTelephone

/-- A chat message as stored in `history` / `pendingMessages`:
`{ userID, displayName, text, timestamp }`. -/
structure Msg where
  userID : String
  displayName : String
  text : String
  timestamp : Nat
deriving DecidableEq, Repr

/-- One role-tagged entry of a chat-completion payload. -/
structure ChatMsg where
  role : String
  content : String
deriving DecidableEq, Repr

/-- Outcome of one `openai.chat.completions.create` call, as the embedding's
provider oracle reports it: either generated text, or an error carrying the
HTTP status (if any) and the error message. -/
inductive ProviderOutcome where
  | ok (text : String)
  | err (status : Option Nat) (message : String)
deriving DecidableEq, Repr

/-- Result of a whole `chatWithFallback` call: success, a propagated fatal
error (`throw err`), or exhaustion of the candidate list (the final
`throw new Error(...)`). -/
inductive DispatchResult where
  | success (text : String)
  | fatal (status : Option Nat) (message : String)
  | exhausted
deriving DecidableEq, Repr

/-- The provider oracle: what the remote call would return for a given model
id and payload, during one dispatch. -/
abbrev Provider : Type := String → List ChatMsg → ProviderOutcome

/-- The penalty box (`penalizedModels`), a map from modelId to unlock
timestamp, embedded as an association list. -/
abbrev PBox : Type := List (String × Nat)

/-- `penalizedModels.get(m)` (with `has` folded in): the unlock time of `m`,
if present. -/
def pbLookup (box : PBox) (m : String) : Option Nat :=
  match box with
  | [] => none
  | (k, v) :: rest => if k = m then some v else pbLookup rest m

/-- `penalizedModels.delete(m)`. -/
def pbErase (box : PBox) (m : String) : PBox :=
  match box with
  | [] => []
  | (k, v) :: rest => if k = m then pbErase rest m else (k, v) :: pbErase rest m

/-- `penalizedModels.set(m, t)` (insert or overwrite). -/
def pbSet (box : PBox) (m : String) (t : Nat) : PBox :=
  (m, t) :: pbErase box m

/-! ### Configuration constants (src/backend/server.js lines 24-39) -/

def MAX_RAW_MESSAGES : Nat := 20
def SUMMARIZE_AFTER : Nat := 30
def LLM_INTERVAL_MS : Nat := 20000
def PENALTY_DURATION_MS : Nat := 60 * 60 * 1000

/-- The fixed model priority list of `src/backend/server.js`. -/
def MODEL_PRIORITY_LIST : List String :=
  ["gpt-4.1-mini", "gpt-4.1-mini-2025-04-14", "gpt-4.1-nano",
   "gpt-4.1-nano-2025-04-14", "gpt-4o-mini", "gpt-4o-mini-2024-07-18"]

/-- The fixed model priority list of `src/unnamed/part_000`. -/
def MODEL_PRIORITY_LIST_ALT : List String :=
  ["gpt-4.1-mini", "gpt-4.1-nano", "gpt-4o-mini",
   "gpt-4.1-mini-2025-04-14", "gpt-4.1-nano-2025-04-14", "gpt-4o-mini-2024-07-18"]

/-! ### Character-list string operations.
The JS string methods used by the server (`startsWith`, `toLowerCase`,
`trim`, `includes`) are embedded structurally over the character list so
that they compute by kernel reduction. -/

/-- `s.startsWith(pre)`. -/
def strStartsWith (s pre : String) : Bool :=
  pre.data.isPrefixOf s.data

/-- `s.toLowerCase()`. -/
def strToLower (s : String) : String :=
  ⟨s.data.map Char.toLower⟩

/-- The whitespace class trimmed by `trim()`. -/
def isTrimSpace (c : Char) : Bool :=
  c = ' ' || c = '\t' || c = '\n' || c = '\r'

/-- `s.trim()`. -/
def strTrim (s : String) : String :=
  ⟨((s.data.dropWhile isTrimSpace).reverse.dropWhile isTrimSpace).reverse⟩

/-- `s.trimStart()` (used for the `\s*` tail of the reply-prefix regex). -/
def strTrimLeft (s : String) : String :=
  ⟨s.data.dropWhile isTrimSpace⟩

/-- Drop the first `n` characters of `s`. -/
def strDrop (s : String) (n : Nat) : String :=
  ⟨s.data.drop n⟩

/-! ### Error classification -/

/-- Bool-valued containment of `needle` in `hay` as a contiguous sublist. -/
def containsSub (needle : List Char) : List Char → Bool
  | [] => needle.isEmpty
  | c :: t => needle.isPrefixOf (c :: t) || containsSub needle t

/-- `err.message.toLowerCase().includes("quota")`. -/
def msgHasQuota (message : String) : Bool :=
  containsSub "quota".data (strToLower message).data

/-- `err.status === 429 || err.message.toLowerCase().includes("quota")` —
the rate-limit classification of `src/backend/server.js`. -/
def isRateLimitedErr (status : Option Nat) (message : String) : Bool :=
  status = some 429 || msgHasQuota message

/-! ### Fallback dispatcher, primary revision (src/backend/server.js 43-75) -/

/-- Penalty-box gate for one candidate: `none` means the model is still
penalized and is skipped; `some box1` means it is eligible, with `box1`
the penalty box after lazy cleanup of an expired entry. -/
def pbGate (now : Nat) (box : PBox) (modelId : String) : Option PBox :=
  match pbLookup box modelId with
  | some unlockTime =>
      if now < unlockTime then none else some (pbErase box modelId)
  | none => some box

/-- The `for (const modelId of MODEL_PRIORITY_LIST)` loop of
`chatWithFallback` in `src/backend/server.js`, generalized over the
candidate list.  Besides the result and the final penalty box it returns
the list of models actually invoked, in order. -/
def fallbackLoop (provider : Provider) (now : Nat) (payload : List ChatMsg) :
    List String → PBox → DispatchResult × PBox × List String
  | [], box => (.exhausted, box, [])
  | modelId :: rest, box =>
    match pbGate now box modelId with
    | none => fallbackLoop provider now payload rest box
    | some box1 =>
      match provider modelId payload with
      | .ok text => (.success text, box1, [modelId])
      | .err status message =>
        if isRateLimitedErr status message then
          let box2 := pbSet box1 modelId (now + PENALTY_DURATION_MS)
          let r := fallbackLoop provider now payload rest box2
          (r.1, r.2.1, modelId :: r.2.2)
        else
          (.fatal status message, box1, [modelId])

/-- `chatWithFallback(payload)` of `src/backend/server.js`: run the fallback
loop over the fixed priority list. -/
def chatWithFallback (provider : Provider) (now : Nat) (payload : List ChatMsg)
    (box : PBox) : DispatchResult × PBox × List String :=
  fallbackLoop provider now payload MODEL_PRIORITY_LIST box

/-! ### Fallback dispatcher, alternative revision (src/unnamed/part_000 70-90).
Differences: only `err.status === 429` is penalized, and any other error is
swallowed with `continue` instead of being rethrown. -/

/-- The `for` loop of `chatWithFallback` in `src/unnamed/part_000`. -/
def fallbackLoopAlt (provider : Provider) (now : Nat) (payload : List ChatMsg) :
    List String → PBox → DispatchResult × PBox × List String
  | [], box => (.exhausted, box, [])
  | modelId :: rest, box =>
    match pbGate now box modelId with
    | none => fallbackLoopAlt provider now payload rest box
    | some box1 =>
      match provider modelId payload with
      | .ok text => (.success text, box1, [modelId])
      | .err status _ =>
        if status = some 429 then
          let box2 := pbSet box1 modelId (now + PENALTY_DURATION_MS)
          let r := fallbackLoopAlt provider now payload rest box2
          (r.1, r.2.1, modelId :: r.2.2)
        else
          let r := fallbackLoopAlt provider now payload rest box1
          (r.1, r.2.1, modelId :: r.2.2)

/-- `chatWithFallback(payload)` of `src/unnamed/part_000`. -/
def chatWithFallbackAlt (provider : Provider) (now : Nat) (payload : List ChatMsg)
    (box : PBox) : DispatchResult × PBox × List String :=
  fallbackLoopAlt provider now payload MODEL_PRIORITY_LIST_ALT box

/-! ### Roster -/

/-- A roster entry of `users`: `{ name, lastActive }`. -/
structure UserRec where
  name : String
  lastActive : Nat
deriving DecidableEq, Repr

/-- `users[sid]`. -/
def usersLookup (users : List (String × UserRec)) (sid : String) : Option UserRec :=
  match users with
  | [] => none
  | (k, u) :: rest => if k = sid then some u else usersLookup rest sid

/-- `delete users[sid]`. -/
def usersErase (users : List (String × UserRec)) (sid : String) :
    List (String × UserRec) :=
  match users with
  | [] => []
  | (k, u) :: rest =>
      if k = sid then usersErase rest sid else (k, u) :: usersErase rest sid

/-- `users[sid] = u` (insert or overwrite). -/
def usersSet (users : List (String × UserRec)) (sid : String) (u : UserRec) :
    List (String × UserRec) :=
  (sid, u) :: usersErase users sid

/-! ### Observable effects -/

/-- A broadcast/emit observable by clients. -/
inductive Out where
  | message (m : Msg)
  | newMessagesPending (n : Nat)
  | godListening (b : Bool)
  | userJoined (name : String)
  | userLeft (name : String)
  | historySnapshot (h : List Msg)
deriving DecidableEq, Repr

/-- One `chatWithFallback` invocation: the message payload handed to the
dispatcher and the models actually invoked for it. -/
structure Call where
  prompt : List ChatMsg
  attempts : List String
deriving DecidableEq, Repr

/-! ### Global server state (src/backend/server.js lines 17-30), with
instrumentation logs for the observable effects. -/

structure SState where
  history : List Msg
  conversationSummary : String
  users : List (String × UserRec)
  pendingMessages : List Msg
  llmCooldown : Bool
  unseenMessageCount : Nat
  penalizedModels : PBox
  /-- the pending `setTimeout` deadline of the cooldown timer, if any -/
  timerAt : Option Nat
  /-- every `io.emit`/`socket.emit`, in order -/
  outsLog : List Out
  /-- every payload handed to `chatWithFallback`, in order -/
  callsLog : List Call
  /-- the batches snapshotted at each dispatch attempt, in order -/
  snapshots : List (List Msg)
  /-- every message pushed onto `pendingMessages`, in order -/
  acceptedLog : List Msg
deriving DecidableEq, Repr

/-! ### Prompts (src/backend/server.js lines 79-99 and 118-126) -/

def renderMsgs (messages : List Msg) : String :=
  String.intercalate "\n" (messages.map (fun m => m.displayName ++ ": " ++ m.text))

/-- The `summaryPrompt` template literal of `summarizeHistory`. -/
def summaryPromptOf (summary : String) (messages : List Msg) : String :=
  "\n    MASTER RECORD: " ++ (if summary = "" then "No previous history." else summary) ++
  "\n    \n    NEW UPDATES:\n    " ++ renderMsgs messages ++
  "\n    \n    TASK: Update the MASTER RECORD with the NEW UPDATES. \n" ++
  "    - Maintain the core narrative of Crousia and the King's decrees.\n" ++
  "    - STRICT LIMIT: Keep the final output under 500 words. \n" ++
  "    - If the record is getting too long, consolidate older details but keep the most important facts.\n  "

def scribeSystemMsg : ChatMsg :=
  ⟨"system", "You are the Eternal Scribe of Crousia. You specialize in dense, recursive summarization."⟩

/-- The message list of the reply payload built in `processLLMQueue`. -/
def godPrompt (summary : String) (history : List Msg) (batch : List Msg) :
    List ChatMsg :=
  [⟨"system", "You are God. Do not preface with 'God:'."⟩] ++
  (if summary = "" then [] else [⟨"system", "History: " ++ summary⟩]) ++
  history.map (fun m => ChatMsg.mk "user" (m.displayName ++ ": " ++ m.text)) ++
  [⟨"user", "Respond to:\n" ++ renderMsgs batch⟩]

/-- `.trim().replace(/^God:\s*/i, "")` applied to the completion text. -/
def stripGodPrefix (s : String) : String :=
  if strStartsWith (strToLower s) "god:" then strTrimLeft (strDrop s 4) else s

/-! ### History Compactor -/

/-- `summarizeHistory(messages)`: build the scribe payload, dispatch it, and
on success return the trimmed completion; on any failure return the prior
summary unchanged (the `catch` clause). -/
def summarizeHistory (provider : Provider) (now : Nat) (summary : String)
    (box : PBox) (messages : List Msg) : String × PBox × Call :=
  let payload := [scribeSystemMsg, ⟨"user", summaryPromptOf summary messages⟩]
  let r := chatWithFallback provider now payload box
  match r.1 with
  | .success text => (strTrim text, r.2.1, ⟨payload, r.2.2⟩)
  | _ => (summary, r.2.1, ⟨payload, r.2.2⟩)

/-- The compaction fragment of the `socket.on("message")` handler
(lines 189-193), generalized over the two window constants:
`if (history.length > SUMMARIZE_AFTER) { old = history.slice(0, len - MAX_RAW);
conversationSummary = await summarizeHistory(old); history = history.slice(-MAX_RAW); }`.
Returns the new history, new summary, new penalty box and the dispatcher
calls made. -/
def maybeCompactP (maxRaw summarizeAfter : Nat) (provider : Provider) (now : Nat)
    (history : List Msg) (summary : String) (box : PBox) :
    List Msg × String × PBox × List Call :=
  if history.length > summarizeAfter then
    let old := history.take (history.length - maxRaw)
    let s := summarizeHistory provider now summary box old
    (history.drop (history.length - maxRaw), s.1, s.2.1, [s.2.2])
  else (history, summary, box, [])

/-- The compaction fragment with the server's constants. -/
def maybeCompact (provider : Provider) (now : Nat) (history : List Msg)
    (summary : String) (box : PBox) : List Msg × String × PBox × List Call :=
  maybeCompactP MAX_RAW_MESSAGES SUMMARIZE_AFTER provider now history summary box

/-! ### Response Scheduler (src/backend/server.js lines 107-141) -/

/-- `processLLMQueue()`: guard on cooldown / empty batch, snapshot and clear
the batch, zero the unseen counter, dispatch, on success append and
broadcast the reply, and schedule the cooldown timer. -/
def processLLMQueue (provider : Provider) (now : Nat) (st : SState) : SState :=
  if st.llmCooldown || st.pendingMessages.isEmpty then st
  else
    let batch := st.pendingMessages
    let payload := godPrompt st.conversationSummary st.history batch
    let st1 := { st with
      llmCooldown := true,
      pendingMessages := [],
      unseenMessageCount := 0,
      outsLog := st.outsLog ++ [Out.godListening true, Out.newMessagesPending 0],
      snapshots := st.snapshots ++ [batch] }
    let r := chatWithFallback provider now payload st1.penalizedModels
    let st2 := { st1 with
      penalizedModels := r.2.1,
      callsLog := st1.callsLog ++ [Call.mk payload r.2.2] }
    let st3 :=
      match r.1 with
      | .success text =>
        let llmMsg : Msg := ⟨"llm", "God", stripGodPrefix (strTrim text), now⟩
        { st2 with
          history := st2.history ++ [llmMsg],
          outsLog := st2.outsLog ++ [Out.message llmMsg] }
      | _ => st2
    { st3 with timerAt := some (now + LLM_INTERVAL_MS) }

/-- The cooldown-timer callback (lines 136-140): leave cooldown, signal
idle, and re-run the queue. -/
def timerFire (provider : Provider) (now : Nat) (st : SState) : SState :=
  let st1 := { st with
    llmCooldown := false,
    timerAt := none,
    outsLog := st.outsLog ++ [Out.godListening false] }
  processLLMQueue provider now st1

/-! ### Session Orchestrator (src/backend/server.js lines 168-202) -/

/-- The `socket.on("join")` handler. -/
def handleJoin (now : Nat) (sid name : String) (st : SState) : SState :=
  { st with
    users := usersSet st.users sid ⟨name, now⟩,
    outsLog := st.outsLog ++ [Out.historySnapshot st.history, Out.godListening st.llmCooldown,
      Out.newMessagesPending st.unseenMessageCount, Out.userJoined name] }

/-- The unconditional head of the handler: refresh `lastActive`, append the
message to `history`, broadcast it, and bump the unseen counter. -/
def acceptMsg (now : Nat) (sid : String) (user : UserRec) (text : String)
    (st : SState) : SState :=
  let msg : Msg := ⟨sid, user.name, text, now⟩
  { st with
    users := usersSet st.users sid { user with lastActive := now },
    history := st.history ++ [msg],
    unseenMessageCount := st.unseenMessageCount + 1,
    outsLog := st.outsLog ++ [Out.message msg, Out.newMessagesPending (st.unseenMessageCount + 1)] }

/-- The compaction fragment applied to the server state. -/
def compactStage (provider : Provider) (now : Nat) (st : SState) : SState :=
  let c := maybeCompact provider now st.history st.conversationSummary st.penalizedModels
  { st with
    history := c.1,
    conversationSummary := c.2.1,
    penalizedModels := c.2.2.1,
    callsLog := st.callsLog ++ c.2.2.2 }

/-- `pendingMessages.push(msg)` (with the accepted-message log). -/
def enqueueMsg (msg : Msg) (st : SState) : SState :=
  { st with
    pendingMessages := st.pendingMessages ++ [msg],
    acceptedLog := st.acceptedLog ++ [msg] }

/-- The `socket.on("message")` handler: drop unknown senders, append and
broadcast the message, bump the unseen counter, stop there for commands,
otherwise compact if due, enqueue, and run the scheduler. -/
def handleMessage (provider : Provider) (now : Nat) (sid text : String)
    (st : SState) : SState :=
  match usersLookup st.users sid with
  | none => st
  | some user =>
    let st1 := acceptMsg now sid user text st
    if strStartsWith text "/" then st1
    else
      processLLMQueue provider now
        (enqueueMsg ⟨sid, user.name, text, now⟩ (compactStage provider now st1))

/-- The `socket.on("disconnect")` handler. -/
def handleDisconnect (sid : String) (st : SState) : SState :=
  match usersLookup st.users sid with
  | none => st
  | some user =>
    { st with
      users := usersErase st.users sid,
      outsLog := st.outsLog ++ [Out.userLeft user.name] }

/-- Whether invoking `d` would come back as a rate/quota failure under the
primary revision's classification. -/
def rlOutcome (provider : Provider) (payload : List ChatMsg) (d : String) : Bool :=
  match provider d payload with
  | .ok _ => false
  | .err status message => isRateLimitedErr status message

/-! ### Traces -/

/-- Environment events, each delivered at a point in time. -/
inductive Ev where
  | join (sid name : String)
  | msg (sid text : String)
  | timer
  | disconnect (sid : String)
deriving DecidableEq, Repr

/-- One event step.  A `timer` event fires only when it matches the
scheduled `setTimeout` deadline. -/
def step (provider : Provider) (st : SState) : Nat × Ev → SState
  | (t, .join sid name) => handleJoin t sid name st
  | (t, .msg sid text) => handleMessage provider t sid text st
  | (t, .timer) =>
      match st.timerAt with
      | some u => if u = t then timerFire provider t st else st
      | none => st
  | (_, .disconnect sid) => handleDisconnect sid st

/-- The initial server state (all globals empty / false / zero). -/
def initState : SState :=
  ⟨[], "", [], [], false, 0, [], none, [], [], [], []⟩

/-- Run a timed event trace from the initial state. -/
def run (provider : Provider) (events : List (Nat × Ev)) : SState :=
  events.foldl (step provider) initState

/-! ### The batch-partition invariant -/

/-- The dispatched batches in order, followed by the still-pending batch,
are exactly the accepted (enqueued) messages in order: no loss, no
duplication, no reordering. -/
def BatchInv (st : SState) : Prop :=
  st.snapshots.flatten ++ st.pendingMessages = st.acceptedLog

/-! ### Concrete providers and scenario data used in the closed theorems -/

/-- A provider for which every model call succeeds. -/
def okProvider : Provider := fun _ _ => .ok "Let there be light."

/-- A provider for which every model call fails with HTTP 429. -/
def rlProvider : Provider := fun _ _ => .err (some 429) "Too Many Requests"

/-- A provider whose first-priority model fails fatally (a 400 without any
quota wording) while every other model succeeds. -/
def fatalFirstProvider : Provider := fun m _ =>
  if m = "gpt-4.1-mini" then .err (some 400) "Invalid request body" else .ok "All is well."

/-- A provider whose first-priority model fails with a quota-worded error
carrying no HTTP status, while every other model succeeds. -/
def quotaFirstProvider : Provider := fun m _ =>
  if m = "gpt-4.1-mini" then .err none "You exceeded your current quota."
  else .ok "All is well."

/-- A verbatim history long enough to cross the compaction threshold. -/
def longHistory : List Msg := List.replicate 31 ⟨"u1", "ana", "hail", 0⟩

/-- The four messages of the small compaction scenario. -/
def m1 : Msg := ⟨"u1", "ana", "first word", 1⟩
def m2 : Msg := ⟨"u1", "ana", "second word", 2⟩
def m3 : Msg := ⟨"u1", "ana", "third word", 3⟩
def m4 : Msg := ⟨"u1", "ana", "fourth word", 4⟩

/-- Trace for the cooldown scenario: messages at t = 0, 5, 10 and 12, and
the cooldown timer expiring at t = 20000. -/
def coolTrace : List (Nat × Ev) :=
  [(0, .join "s" "alice"), (0, .msg "s" "Hello"), (5, .msg "s" "Anyone there"),
   (10, .msg "s" "Speak"), (12, .msg "s" "Please"), (20000, .timer)]

/-- The cooldown scenario without the t = 12 message (only t = 0, 5, 10). -/
def coolTrace3 : List (Nat × Ev) :=
  [(0, .join "s" "alice"), (0, .msg "s" "Hello"), (5, .msg "s" "Anyone there"),
   (10, .msg "s" "Speak"), (20000, .timer)]

/-- Trace for the command-message scenario: a command, then a normal
message that triggers a reply dispatch. -/
def commandTrace : List (Nat × Ev) :=
  [(0, .join "s" "alice"), (1, .msg "s" "/secret plan"), (2, .msg "s" "hello")]

/-- Trace for the unseen-counter scenario: a single command message. -/
def counterTrace : List (Nat × Ev) :=
  [(0, .join "s" "alice"), (1, .msg "s" "/roll d20")]

/-! ### Penalty-box map lemmas -/

@[simp] theorem pbLookup_nil (m : String) : pbLookup [] m = none := rfl

theorem pbLookup_cons (k : String) (v : Nat) (rest : PBox) (m : String) :
    pbLookup ((k, v) :: rest) m = if k = m then some v else pbLookup rest m := rfl

theorem pbLookup_pbErase_ne (box : PBox) (m c : String) (h : c ≠ m) :
    pbLookup (pbErase box m) c = pbLookup box c := by
  induction box with
  | nil => rfl
  | cons p rest ih =>
    obtain ⟨k, v⟩ := p
    by_cases hk : k = m
    · subst hk
      have hkc : ¬ k = c := fun hc => h hc.symm
      simp only [pbErase, if_pos rfl, pbLookup_cons, hkc, if_false]
      exact ih
    · simp only [pbErase, hk, if_false, pbLookup_cons]
      by_cases hkc : k = c
      · simp [hkc]
      · simp only [hkc, if_false]
        exact ih

@[simp] theorem pbLookup_pbSet_self (box : PBox) (m : String) (t : Nat) :
    pbLookup (pbSet box m t) m = some t := by
  simp [pbSet, pbLookup_cons]

theorem pbLookup_pbSet_ne (box : PBox) (m c : String) (t : Nat) (h : c ≠ m) :
    pbLookup (pbSet box m t) c = pbLookup box c := by
  simp only [pbSet, pbLookup_cons]
  rw [if_neg (fun hc => h hc.symm)]
  exact pbLookup_pbErase_ne box m c h

/-! ### Dispatcher lemmas -/

theorem pbGate_eq_none {now : Nat} {box : PBox} {c : String} {u : Nat}
    (h : pbLookup box c = some u) (hu : now < u) : pbGate now box c = none := by
  simp [pbGate, h, hu]

theorem pbGate_no_entry {now : Nat} {box : PBox} {m : String}
    (hl : pbLookup box m = none) : pbGate now box m = some box := by
  simp [pbGate, hl]

theorem pbGate_entry {now : Nat} {box : PBox} {m : String} {u : Nat}
    (hl : pbLookup box m = some u) :
    pbGate now box m = if now < u then none else some (pbErase box m) := by
  simp [pbGate, hl]

theorem pbGate_lookup_ne {now : Nat} {box box1 : PBox} {m : String}
    (h : pbGate now box m = some box1) (c : String) (hc : c ≠ m) :
    pbLookup box1 c = pbLookup box c := by
  cases hl : pbLookup box m with
  | none =>
    rw [pbGate_no_entry hl] at h
    cases h
    rfl
  | some u =>
    rw [pbGate_entry hl] at h
    by_cases hu : now < u
    · rw [if_pos hu] at h; cases h
    · rw [if_neg hu] at h
      cases h
      exact pbLookup_pbErase_ne box m c hc

theorem fallbackLoop_nil (provider : Provider) (now : Nat) (payload : List ChatMsg)
    (box : PBox) : fallbackLoop provider now payload [] box = (.exhausted, box, []) := rfl

theorem fallbackLoop_cons_skip {provider : Provider} {now : Nat} {payload : List ChatMsg}
    {m : String} {box : PBox} (rest : List String) (hg : pbGate now box m = none) :
    fallbackLoop provider now payload (m :: rest) box =
      fallbackLoop provider now payload rest box := by
  simp [fallbackLoop, hg]

theorem fallbackLoop_cons_ok {provider : Provider} {now : Nat} {payload : List ChatMsg}
    {m : String} {box box1 : PBox} {text : String} (rest : List String)
    (hg : pbGate now box m = some box1) (hp : provider m payload = .ok text) :
    fallbackLoop provider now payload (m :: rest) box = (.success text, box1, [m]) := by
  simp [fallbackLoop, hg, hp]

theorem fallbackLoop_cons_rl {provider : Provider} {now : Nat} {payload : List ChatMsg}
    {m : String} {box box1 : PBox} {status : Option Nat} {message : String}
    (rest : List String) (hg : pbGate now box m = some box1)
    (hp : provider m payload = .err status message)
    (hrl : isRateLimitedErr status message = true) :
    fallbackLoop provider now payload (m :: rest) box =
      ((fallbackLoop provider now payload rest (pbSet box1 m (now + PENALTY_DURATION_MS))).1,
       (fallbackLoop provider now payload rest (pbSet box1 m (now + PENALTY_DURATION_MS))).2.1,
       m :: (fallbackLoop provider now payload rest (pbSet box1 m (now + PENALTY_DURATION_MS))).2.2) := by
  simp [fallbackLoop, hg, hp, hrl]

theorem fallbackLoop_cons_fatal {provider : Provider} {now : Nat} {payload : List ChatMsg}
    {m : String} {box box1 : PBox} {status : Option Nat} {message : String}
    (rest : List String) (hg : pbGate now box m = some box1)
    (hp : provider m payload = .err status message)
    (hrl : isRateLimitedErr status message = false) :
    fallbackLoop provider now payload (m :: rest) box = (.fatal status message, box1, [m]) := by
  simp [fallbackLoop, hg, hp, hrl]

/-- A penalty entry that is still locked at `now` survives the whole scan. -/
theorem fallbackLoop_stable {provider : Provider} {now : Nat} {payload : List ChatMsg}
    {c : String} {u : Nat} :
    ∀ (cands : List String) (box : PBox), pbLookup box c = some u → now < u →
      pbLookup (fallbackLoop provider now payload cands box).2.1 c = some u := by
  intro cands
  induction cands with
  | nil => intro box h _; exact h
  | cons m rest ih =>
    intro box h hu
    cases hg : pbGate now box m with
    | none => rw [fallbackLoop_cons_skip rest hg]; exact ih box h hu
    | some box1 =>
      have hmc : c ≠ m := by
        intro e
        subst e
        rw [pbGate_eq_none h hu] at hg
        cases hg
      have h1 : pbLookup box1 c = some u := by
        rw [pbGate_lookup_ne hg c hmc]; exact h
      cases hp : provider m payload with
      | ok text => rw [fallbackLoop_cons_ok rest hg hp]; exact h1
      | err status message =>
        cases hrl : isRateLimitedErr status message with
        | true =>
          rw [fallbackLoop_cons_rl rest hg hp hrl]
          have h2 : pbLookup (pbSet box1 m (now + PENALTY_DURATION_MS)) c = some u := by
            rw [pbLookup_pbSet_ne box1 m c _ hmc]; exact h1
          exact ih _ h2 hu
        | false => rw [fallbackLoop_cons_fatal rest hg hp hrl]; exact h1

/-- A candidate whose penalty entry is still locked at `now` is never
invoked during the scan. -/
theorem fallbackLoop_skip_penalized {provider : Provider} {now : Nat}
    {payload : List ChatMsg} {c : String} {u : Nat} :
    ∀ (cands : List String) (box : PBox), pbLookup box c = some u → now < u →
      c ∉ (fallbackLoop provider now payload cands box).2.2 := by
  intro cands
  induction cands with
  | nil => intro box _ _ hmem; cases hmem
  | cons m rest ih =>
    intro box h hu
    cases hg : pbGate now box m with
    | none => rw [fallbackLoop_cons_skip rest hg]; exact ih box h hu
    | some box1 =>
      have hmc : c ≠ m := by
        intro e
        subst e
        rw [pbGate_eq_none h hu] at hg
        cases hg
      cases hp : provider m payload with
      | ok text =>
        rw [fallbackLoop_cons_ok rest hg hp]
        simp [hmc]
      | err status message =>
        cases hrl : isRateLimitedErr status message with
        | true =>
          rw [fallbackLoop_cons_rl rest hg hp hrl]
          intro hmem
          rcases List.mem_cons.mp hmem with e | hmem'
          · exact hmc e
          · have h2 : pbLookup (pbSet box1 m (now + PENALTY_DURATION_MS)) c = some u := by
              rw [pbLookup_pbSet_ne box1 m c _ hmc]
              rw [pbGate_lookup_ne hg c hmc]
              exact h
            exact ih _ h2 hu hmem'
        | false =>
          rw [fallbackLoop_cons_fatal rest hg hp hrl]
          simp [hmc]

/-- The models invoked form an in-order subsequence of the candidate list. -/
theorem fallbackLoop_attempts_sublist {provider : Provider} {now : Nat}
    {payload : List ChatMsg} :
    ∀ (cands : List String) (box : PBox),
      (fallbackLoop provider now payload cands box).2.2.Sublist cands := by
  intro cands
  induction cands with
  | nil => intro box; exact List.Sublist.refl []
  | cons m rest ih =>
    intro box
    cases hg : pbGate now box m with
    | none => rw [fallbackLoop_cons_skip rest hg]; exact (ih box).cons m
    | some box1 =>
      cases hp : provider m payload with
      | ok text =>
        rw [fallbackLoop_cons_ok rest hg hp]
        exact (List.nil_sublist rest).cons₂ m
      | err status message =>
        cases hrl : isRateLimitedErr status message with
        | true =>
          rw [fallbackLoop_cons_rl rest hg hp hrl]
          exact (ih _).cons₂ m
        | false =>
          rw [fallbackLoop_cons_fatal rest hg hp hrl]
          exact (List.nil_sublist rest).cons₂ m

/-- A model invoked and answered by a rate/quota failure holds a penalty
entry `now + PENALTY_DURATION_MS` in the final box. -/
theorem fallbackLoop_penalize {provider : Provider} {now : Nat}
    {payload : List ChatMsg} {c : String} {status : Option Nat} {message : String} :
    ∀ (cands : List String) (box : PBox),
      c ∈ (fallbackLoop provider now payload cands box).2.2 →
      provider c payload = .err status message →
      isRateLimitedErr status message = true →
      pbLookup (fallbackLoop provider now payload cands box).2.1 c =
        some (now + PENALTY_DURATION_MS) := by
  intro cands
  induction cands with
  | nil => intro box hmem _ _; cases hmem
  | cons m rest ih =>
    intro box hmem hp hrl
    cases hg : pbGate now box m with
    | none =>
      rw [fallbackLoop_cons_skip rest hg] at hmem ⊢
      exact ih box hmem hp hrl
    | some box1 =>
      cases hpm : provider m payload with
      | ok text =>
        rw [fallbackLoop_cons_ok rest hg hpm] at hmem
        have e : c = m := by simpa using hmem
        subst e
        rw [hp] at hpm
        cases hpm
      | err status' message' =>
        cases hrl' : isRateLimitedErr status' message' with
        | true =>
          rw [fallbackLoop_cons_rl rest hg hpm hrl'] at hmem ⊢
          rcases List.mem_cons.mp hmem with e | hmem'
          · subst e
            have hb : pbLookup (pbSet box1 c (now + PENALTY_DURATION_MS)) c =
                some (now + PENALTY_DURATION_MS) := pbLookup_pbSet_self box1 c _
            exact fallbackLoop_stable rest _ hb (Nat.lt_add_of_pos_right (by decide))
          · exact ih _ hmem' hp hrl
        | false =>
          rw [fallbackLoop_cons_fatal rest hg hpm hrl'] at hmem
          have e : c = m := by simpa using hmem
          subst e
          rw [hp] at hpm
          cases hpm
          rw [hrl'] at hrl
          cases hrl

/-- An empty invocation list means the scan fell off the end. -/
theorem fallbackLoop_attempts_nil_exhausted {provider : Provider} {now : Nat}
    {payload : List ChatMsg} :
    ∀ (cands : List String) (box : PBox),
      (fallbackLoop provider now payload cands box).2.2 = [] →
      (fallbackLoop provider now payload cands box).1 = .exhausted := by
  intro cands
  induction cands with
  | nil => intro box _; rfl
  | cons m rest ih =>
    intro box hnil
    cases hg : pbGate now box m with
    | none =>
      rw [fallbackLoop_cons_skip rest hg] at hnil ⊢
      exact ih box hnil
    | some box1 =>
      cases hp : provider m payload with
      | ok text => rw [fallbackLoop_cons_ok rest hg hp] at hnil; cases hnil
      | err status message =>
        cases hrl : isRateLimitedErr status message with
        | true => rw [fallbackLoop_cons_rl rest hg hp hrl] at hnil; cases hnil
        | false => rw [fallbackLoop_cons_fatal rest hg hp hrl] at hnil; cases hnil

/-- Every invoked model other than the last came back rate-limited: a
rate-limit failure never stops the scan. -/
theorem fallbackLoop_prefix_rl {provider : Provider} {now : Nat}
    {payload : List ChatMsg} :
    ∀ (cands : List String) (box : PBox) (as : List String) (c : String),
      (fallbackLoop provider now payload cands box).2.2 = as ++ [c] →
      ∀ d ∈ as, rlOutcome provider payload d = true := by
  intro cands
  induction cands with
  | nil =>
    intro box as c h
    cases as <;> cases h
  | cons m rest ih =>
    intro box as c h d hd
    cases hg : pbGate now box m with
    | none =>
      rw [fallbackLoop_cons_skip rest hg] at h
      exact ih box as c h d hd
    | some box1 =>
      cases hp : provider m payload with
      | ok text =>
        rw [fallbackLoop_cons_ok rest hg hp] at h
        cases as with
        | nil => cases hd
        | cons x xs =>
          rw [List.cons_append] at h
          injection h with h1 h2
          cases xs <;> cases h2
      | err status message =>
        cases hrl : isRateLimitedErr status message with
        | true =>
          rw [fallbackLoop_cons_rl rest hg hp hrl] at h
          cases as with
          | nil => cases hd
          | cons x xs =>
            rw [List.cons_append] at h
            injection h with h1 h2
            subst h1
            rcases List.mem_cons.mp hd with e | hd'
            · subst e
              simp [rlOutcome, hp, hrl]
            · exact ih _ xs c h2 d hd'
        | false =>
          rw [fallbackLoop_cons_fatal rest hg hp hrl] at h
          cases as with
          | nil => cases hd
          | cons x xs =>
            rw [List.cons_append] at h
            injection h with h1 h2
            cases xs <;> cases h2

/-- If even the last invoked model came back rate-limited, the whole call
ends `exhausted`: the scan continued past it to the end of the list. -/
theorem fallbackLoop_last_rl_exhausted {provider : Provider} {now : Nat}
    {payload : List ChatMsg} :
    ∀ (cands : List String) (box : PBox) (as : List String) (c : String),
      (fallbackLoop provider now payload cands box).2.2 = as ++ [c] →
      rlOutcome provider payload c = true →
      (fallbackLoop provider now payload cands box).1 = .exhausted := by
  intro cands
  induction cands with
  | nil =>
    intro box as c h
    cases as <;> cases h
  | cons m rest ih =>
    intro box as c h hc
    cases hg : pbGate now box m with
    | none =>
      rw [fallbackLoop_cons_skip rest hg] at h ⊢
      exact ih box as c h hc
    | some box1 =>
      cases hp : provider m payload with
      | ok text =>
        rw [fallbackLoop_cons_ok rest hg hp] at h
        have e : c = m := by
          cases as with
          | nil =>
            injection h with h1 h2
            exact h1.symm
          | cons x xs =>
            rw [List.cons_append] at h
            injection h with h1 h2
            cases xs <;> cases h2
        subst e
        simp only [rlOutcome, hp] at hc
        exact Bool.noConfusion hc
      | err status message =>
        cases hrl : isRateLimitedErr status message with
        | true =>
          rw [fallbackLoop_cons_rl rest hg hp hrl] at h
          rw [fallbackLoop_cons_rl rest hg hp hrl]
          cases as with
          | nil =>
            injection h with h1 h2
            exact fallbackLoop_attempts_nil_exhausted rest _ h2
          | cons x xs =>
            rw [List.cons_append] at h
            injection h with h1 h2
            exact ih _ xs c h2 hc
        | false =>
          rw [fallbackLoop_cons_fatal rest hg hp hrl] at h
          have e : c = m := by
            cases as with
            | nil =>
              injection h with h1 h2
              exact h1.symm
            | cons x xs =>
              rw [List.cons_append] at h
              injection h with h1 h2
              cases xs <;> cases h2
          subst e
          simp only [rlOutcome, hp, hrl] at hc
          exact Bool.noConfusion hc

/-- Scanning a wholly-skipped prefix changes nothing. -/
theorem fallbackLoop_skip_front {provider : Provider} {now : Nat}
    {payload : List ChatMsg} :
    ∀ (l₁ : List String) (l₂ : List String) (box : PBox),
      (∀ d ∈ l₁, pbGate now box d = none) →
      fallbackLoop provider now payload (l₁ ++ l₂) box =
        fallbackLoop provider now payload l₂ box := by
  intro l₁
  induction l₁ with
  | nil => intro l₂ box _; rfl
  | cons m rest ih =>
    intro l₂ box hskip
    rw [List.cons_append, fallbackLoop_cons_skip _ (hskip m (List.mem_cons_self m rest))]
    exact ih l₂ box (fun d hd => hskip d (List.mem_cons_of_mem m hd))

/-- A fatal (neither 429 nor quota) failure of the first eligible candidate
ends the call at once: no penalty entry, no further candidate. -/
theorem fallbackLoop_first_eligible_fatal {provider : Provider} {now : Nat}
    {payload : List ChatMsg} {c : String} {box box1 : PBox} {status : Option Nat}
    {message : String} (l₁ l₂ : List String)
    (hskip : ∀ d ∈ l₁, pbGate now box d = none)
    (hg : pbGate now box c = some box1)
    (hp : provider c payload = .err status message)
    (hrl : isRateLimitedErr status message = false) :
    fallbackLoop provider now payload (l₁ ++ c :: l₂) box =
      (.fatal status message, box1, [c]) := by
  rw [fallbackLoop_skip_front l₁ (c :: l₂) box hskip]
  exact fallbackLoop_cons_fatal l₂ hg hp hrl

/-! ### Dispatcher lemmas, alternative revision -/

theorem fallbackLoopAlt_cons_skip {provider : Provider} {now : Nat} {payload : List ChatMsg}
    {m : String} {box : PBox} (rest : List String) (hg : pbGate now box m = none) :
    fallbackLoopAlt provider now payload (m :: rest) box =
      fallbackLoopAlt provider now payload rest box := by
  simp [fallbackLoopAlt, hg]

theorem fallbackLoopAlt_cons_ok {provider : Provider} {now : Nat} {payload : List ChatMsg}
    {m : String} {box box1 : PBox} {text : String} (rest : List String)
    (hg : pbGate now box m = some box1) (hp : provider m payload = .ok text) :
    fallbackLoopAlt provider now payload (m :: rest) box = (.success text, box1, [m]) := by
  simp [fallbackLoopAlt, hg, hp]

theorem fallbackLoopAlt_cons_429 {provider : Provider} {now : Nat} {payload : List ChatMsg}
    {m : String} {box box1 : PBox} {message : String}
    (rest : List String) (hg : pbGate now box m = some box1)
    (hp : provider m payload = .err (some 429) message) :
    fallbackLoopAlt provider now payload (m :: rest) box =
      ((fallbackLoopAlt provider now payload rest (pbSet box1 m (now + PENALTY_DURATION_MS))).1,
       (fallbackLoopAlt provider now payload rest (pbSet box1 m (now + PENALTY_DURATION_MS))).2.1,
       m :: (fallbackLoopAlt provider now payload rest (pbSet box1 m (now + PENALTY_DURATION_MS))).2.2) := by
  simp [fallbackLoopAlt, hg, hp]

theorem fallbackLoopAlt_cons_other {provider : Provider} {now : Nat} {payload : List ChatMsg}
    {m : String} {box box1 : PBox} {status : Option Nat} {message : String}
    (rest : List String) (hg : pbGate now box m = some box1)
    (hp : provider m payload = .err status message) (hs : status ≠ some 429) :
    fallbackLoopAlt provider now payload (m :: rest) box =
      ((fallbackLoopAlt provider now payload rest box1).1,
       (fallbackLoopAlt provider now payload rest box1).2.1,
       m :: (fallbackLoopAlt provider now payload rest box1).2.2) := by
  simp [fallbackLoopAlt, hg, hp, hs]

/-- Alternative revision: a candidate whose penalty entry is still locked at
`now` is never invoked during the scan. -/
theorem fallbackLoopAlt_skip_penalized {provider : Provider} {now : Nat}
    {payload : List ChatMsg} {c : String} {u : Nat} :
    ∀ (cands : List String) (box : PBox), pbLookup box c = some u → now < u →
      c ∉ (fallbackLoopAlt provider now payload cands box).2.2 := by
  intro cands
  induction cands with
  | nil => intro box _ _ hmem; cases hmem
  | cons m rest ih =>
    intro box h hu
    cases hg : pbGate now box m with
    | none => rw [fallbackLoopAlt_cons_skip rest hg]; exact ih box h hu
    | some box1 =>
      have hmc : c ≠ m := by
        intro e
        subst e
        rw [pbGate_eq_none h hu] at hg
        cases hg
      have h1 : pbLookup box1 c = some u := by
        rw [pbGate_lookup_ne hg c hmc]; exact h
      cases hp : provider m payload with
      | ok text =>
        rw [fallbackLoopAlt_cons_ok rest hg hp]
        simp [hmc]
      | err status message =>
        by_cases hs : status = some 429
        · subst hs
          rw [fallbackLoopAlt_cons_429 rest hg hp]
          intro hmem
          rcases List.mem_cons.mp hmem with e | hmem'
          · exact hmc e
          · have h2 : pbLookup (pbSet box1 m (now + PENALTY_DURATION_MS)) c = some u := by
              rw [pbLookup_pbSet_ne box1 m c _ hmc]; exact h1
            exact ih _ h2 hu hmem'
        · rw [fallbackLoopAlt_cons_other rest hg hp hs]
          intro hmem
          rcases List.mem_cons.mp hmem with e | hmem'
          · exact hmc e
          · exact ih _ h1 hu hmem'

/-- Alternative revision: a still-locked penalty entry survives the scan. -/
theorem fallbackLoopAlt_stable {provider : Provider} {now : Nat} {payload : List ChatMsg}
    {c : String} {u : Nat} :
    ∀ (cands : List String) (box : PBox), pbLookup box c = some u → now < u →
      pbLookup (fallbackLoopAlt provider now payload cands box).2.1 c = some u := by
  intro cands
  induction cands with
  | nil => intro box h _; exact h
  | cons m rest ih =>
    intro box h hu
    cases hg : pbGate now box m with
    | none => rw [fallbackLoopAlt_cons_skip rest hg]; exact ih box h hu
    | some box1 =>
      have hmc : c ≠ m := by
        intro e
        subst e
        rw [pbGate_eq_none h hu] at hg
        cases hg
      have h1 : pbLookup box1 c = some u := by
        rw [pbGate_lookup_ne hg c hmc]; exact h
      cases hp : provider m payload with
      | ok text => rw [fallbackLoopAlt_cons_ok rest hg hp]; exact h1
      | err status message =>
        by_cases hs : status = some 429
        · subst hs
          rw [fallbackLoopAlt_cons_429 rest hg hp]
          have h2 : pbLookup (pbSet box1 m (now + PENALTY_DURATION_MS)) c = some u := by
            rw [pbLookup_pbSet_ne box1 m c _ hmc]; exact h1
          exact ih _ h2 hu
        · rw [fallbackLoopAlt_cons_other rest hg hp hs]
          exact ih _ h1 hu

/-- Alternative revision: a model invoked and answered with HTTP 429 holds a
penalty entry `now + PENALTY_DURATION_MS` in the final box. -/
theorem fallbackLoopAlt_penalize_429 {provider : Provider} {now : Nat}
    {payload : List ChatMsg} {c : String} {message : String} :
    ∀ (cands : List String) (box : PBox),
      c ∈ (fallbackLoopAlt provider now payload cands box).2.2 →
      provider c payload = .err (some 429) message →
      pbLookup (fallbackLoopAlt provider now payload cands box).2.1 c =
        some (now + PENALTY_DURATION_MS) := by
  intro cands
  induction cands with
  | nil => intro box hmem _; cases hmem
  | cons m rest ih =>
    intro box hmem hp
    cases hg : pbGate now box m with
    | none =>
      rw [fallbackLoopAlt_cons_skip rest hg] at hmem ⊢
      exact ih box hmem hp
    | some box1 =>
      cases hpm : provider m payload with
      | ok text =>
        rw [fallbackLoopAlt_cons_ok rest hg hpm] at hmem
        have e : c = m := by simpa using hmem
        subst e
        rw [hp] at hpm
        cases hpm
      | err status message' =>
        by_cases hs : status = some 429
        · subst hs
          rw [fallbackLoopAlt_cons_429 rest hg hpm] at hmem ⊢
          rcases List.mem_cons.mp hmem with e | hmem'
          · subst e
            have hb : pbLookup (pbSet box1 c (now + PENALTY_DURATION_MS)) c =
                some (now + PENALTY_DURATION_MS) := pbLookup_pbSet_self box1 c _
            exact fallbackLoopAlt_stable rest _ hb (Nat.lt_add_of_pos_right (by decide))
          · exact ih _ hmem' hp
        · rw [fallbackLoopAlt_cons_other rest hg hpm hs] at hmem ⊢
          rcases List.mem_cons.mp hmem with e | hmem'
          · subst e
            rw [hp] at hpm
            injection hpm with h1 h2
            exact absurd h1.symm hs
          · exact ih _ hmem' hp

/-- Alternative revision: scanning a wholly-skipped prefix changes nothing. -/
theorem fallbackLoopAlt_skip_front {provider : Provider} {now : Nat}
    {payload : List ChatMsg} :
    ∀ (l₁ : List String) (l₂ : List String) (box : PBox),
      (∀ d ∈ l₁, pbGate now box d = none) →
      fallbackLoopAlt provider now payload (l₁ ++ l₂) box =
        fallbackLoopAlt provider now payload l₂ box := by
  intro l₁
  induction l₁ with
  | nil => intro l₂ box _; rfl
  | cons m rest ih =>
    intro l₂ box hskip
    rw [List.cons_append, fallbackLoopAlt_cons_skip _ (hskip m (List.mem_cons_self m rest))]
    exact ih l₂ box (fun d hd => hskip d (List.mem_cons_of_mem m hd))

/-- Alternative revision: a non-429 failure of the first eligible candidate
is swallowed — the scan just continues with the remaining candidates and an
unchanged penalty box. -/
theorem fallbackLoopAlt_first_eligible_err_continues {provider : Provider} {now : Nat}
    {payload : List ChatMsg} {c : String} {box box1 : PBox} {status : Option Nat}
    {message : String} (l₁ l₂ : List String)
    (hskip : ∀ d ∈ l₁, pbGate now box d = none)
    (hg : pbGate now box c = some box1)
    (hp : provider c payload = .err status message)
    (hs : status ≠ some 429) :
    fallbackLoopAlt provider now payload (l₁ ++ c :: l₂) box =
      ((fallbackLoopAlt provider now payload l₂ box1).1,
       (fallbackLoopAlt provider now payload l₂ box1).2.1,
       c :: (fallbackLoopAlt provider now payload l₂ box1).2.2) := by
  rw [fallbackLoopAlt_skip_front l₁ (c :: l₂) box hskip]
  exact fallbackLoopAlt_cons_other l₂ hg hp hs

/-! ### Scheduler and orchestrator lemmas -/

theorem processLLMQueue_of_cooldown {provider : Provider} {now : Nat} {st : SState}
    (h : st.llmCooldown = true) : processLLMQueue provider now st = st := by
  simp [processLLMQueue, h]

theorem processLLMQueue_of_no_pending {provider : Provider} {now : Nat} {st : SState}
    (h : st.pendingMessages = []) : processLLMQueue provider now st = st := by
  simp [processLLMQueue, h]

theorem pending_isEmpty_false {st : SState} (h : st.pendingMessages ≠ []) :
    st.pendingMessages.isEmpty = false := by
  cases h3 : st.pendingMessages with
  | nil => exact absurd h3 h
  | cons a l => rfl

theorem processLLMQueue_attempt {provider : Provider} {now : Nat} {st : SState}
    (h1 : st.llmCooldown = false) (h2 : st.pendingMessages ≠ []) :
    (processLLMQueue provider now st).llmCooldown = true ∧
    (processLLMQueue provider now st).timerAt = some (now + LLM_INTERVAL_MS) ∧
    (processLLMQueue provider now st).pendingMessages = [] ∧
    (processLLMQueue provider now st).unseenMessageCount = 0 ∧
    (processLLMQueue provider now st).snapshots = st.snapshots ++ [st.pendingMessages] ∧
    (processLLMQueue provider now st).acceptedLog = st.acceptedLog := by
  have he := pending_isEmpty_false h2
  simp only [processLLMQueue, h1, he, Bool.or_self, Bool.false_eq_true, if_false]
  split <;> simp

theorem processLLMQueue_outsLog_extend {provider : Provider} {now : Nat} {st : SState} :
    ∃ l, (processLLMQueue provider now st).outsLog = st.outsLog ++ l := by
  by_cases h1 : st.llmCooldown = true
  · rw [processLLMQueue_of_cooldown h1]
    exact ⟨[], (List.append_nil _).symm⟩
  · have h1' : st.llmCooldown = false := by
      revert h1; cases st.llmCooldown <;> simp
    by_cases h2 : st.pendingMessages = []
    · rw [processLLMQueue_of_no_pending h2]
      exact ⟨[], (List.append_nil _).symm⟩
    · have he := pending_isEmpty_false h2
      simp only [processLLMQueue, h1', he, Bool.or_self, Bool.false_eq_true, if_false]
      split
      · next text heq =>
        exact ⟨[Out.godListening true, Out.newMessagesPending 0,
          Out.message ⟨"llm", "God", stripGodPrefix (strTrim text), now⟩],
          by simp⟩
      · exact ⟨[Out.godListening true, Out.newMessagesPending 0], rfl⟩

theorem timerFire_no_pending {provider : Provider} {now : Nat} {st : SState}
    (h : st.pendingMessages = []) :
    timerFire provider now st =
      { st with
        llmCooldown := false,
        timerAt := none,
        outsLog := st.outsLog ++ [Out.godListening false] } := by
  unfold timerFire
  exact processLLMQueue_of_no_pending h

theorem timerFire_pending {provider : Provider} {now : Nat} {st : SState}
    (h : st.pendingMessages ≠ []) :
    (timerFire provider now st).llmCooldown = true ∧
    (timerFire provider now st).timerAt = some (now + LLM_INTERVAL_MS) ∧
    (timerFire provider now st).pendingMessages = [] ∧
    (timerFire provider now st).snapshots = st.snapshots ++ [st.pendingMessages] := by
  unfold timerFire
  obtain ⟨a, b, c, _, e, _⟩ := @processLLMQueue_attempt provider now
    { st with
      llmCooldown := false,
      timerAt := none,
      outsLog := st.outsLog ++ [Out.godListening false] } rfl h
  exact ⟨a, b, c, e⟩

theorem handleMessage_of_unknown {provider : Provider} {now : Nat} {sid text : String}
    {st : SState} (h : usersLookup st.users sid = none) :
    handleMessage provider now sid text st = st := by
  simp [handleMessage, h]

theorem handleMessage_command {provider : Provider} {now : Nat} {sid text : String}
    {st : SState} {user : UserRec} (h : usersLookup st.users sid = some user)
    (hc : strStartsWith text "/" = true) :
    handleMessage provider now sid text st = acceptMsg now sid user text st := by
  simp [handleMessage, h, hc]

theorem handleMessage_normal {provider : Provider} {now : Nat} {sid text : String}
    {st : SState} {user : UserRec} (h : usersLookup st.users sid = some user)
    (hc : strStartsWith text "/" = false) :
    handleMessage provider now sid text st =
      processLLMQueue provider now (enqueueMsg ⟨sid, user.name, text, now⟩
        (compactStage provider now (acceptMsg now sid user text st))) := by
  simp [handleMessage, h, hc]

theorem handleMessage_outsLog_extends {provider : Provider} {now : Nat}
    {sid text : String} {st : SState} {user : UserRec}
    (h : usersLookup st.users sid = some user) :
    ∃ l, (handleMessage provider now sid text st).outsLog =
      st.outsLog ++ [Out.message ⟨sid, user.name, text, now⟩,
        Out.newMessagesPending (st.unseenMessageCount + 1)] ++ l := by
  by_cases hc : strStartsWith text "/" = true
  · rw [handleMessage_command h hc]
    exact ⟨[], by simp [acceptMsg]⟩
  · have hc' : strStartsWith text "/" = false := by
      revert hc; cases strStartsWith text "/" <;> simp
    rw [handleMessage_normal h hc']
    obtain ⟨l, hl⟩ := @processLLMQueue_outsLog_extend provider now
      (enqueueMsg ⟨sid, user.name, text, now⟩
        (compactStage provider now (acceptMsg now sid user text st)))
    refine ⟨l, ?_⟩
    rw [hl]
    simp [enqueueMsg, compactStage, acceptMsg]

/-! ### Preservation of the batch-partition invariant -/

theorem BatchInv_processLLMQueue {provider : Provider} {now : Nat} {st : SState}
    (h : BatchInv st) : BatchInv (processLLMQueue provider now st) := by
  by_cases h1 : st.llmCooldown = true
  · rw [processLLMQueue_of_cooldown h1]; exact h
  · have h1' : st.llmCooldown = false := by
      revert h1; cases st.llmCooldown <;> simp
    by_cases h2 : st.pendingMessages = []
    · rw [processLLMQueue_of_no_pending h2]; exact h
    · obtain ⟨_, _, hp, _, hsn, hac⟩ := processLLMQueue_attempt h1' h2
      unfold BatchInv at h ⊢
      rw [hp, hsn, hac, List.append_nil, List.flatten_append]
      simpa using h

theorem BatchInv_step {provider : Provider} {st : SState} (e : Nat × Ev)
    (h : BatchInv st) : BatchInv (step provider st e) := by
  obtain ⟨t, ev⟩ := e
  cases ev with
  | join sid name =>
    have : BatchInv (handleJoin t sid name st) := by
      unfold BatchInv at h ⊢
      simpa [handleJoin] using h
    simpa [step] using this
  | msg sid text =>
    show BatchInv (handleMessage provider t sid text st)
    cases hl : usersLookup st.users sid with
    | none => rw [handleMessage_of_unknown hl]; exact h
    | some user =>
      by_cases hc : strStartsWith text "/" = true
      · rw [handleMessage_command hl hc]
        unfold BatchInv at h ⊢
        simpa [acceptMsg] using h
      · have hc' : strStartsWith text "/" = false := by
          revert hc; cases strStartsWith text "/" <;> simp
        rw [handleMessage_normal hl hc']
        apply BatchInv_processLLMQueue
        unfold BatchInv at h ⊢
        simp only [enqueueMsg, compactStage, acceptMsg]
        rw [← List.append_assoc]
        simpa using congrArg (· ++ [(⟨sid, user.name, text, t⟩ : Msg)]) h
  | timer =>
    show BatchInv (match st.timerAt with
      | some u => if u = t then timerFire provider t st else st
      | none => st)
    cases ht : st.timerAt with
    | none => exact h
    | some u =>
      by_cases hu : u = t
      · simp only [hu, if_pos rfl]
        unfold timerFire
        apply BatchInv_processLLMQueue
        unfold BatchInv at h ⊢
        simpa using h
      · simp only [if_neg hu]
        exact h
  | disconnect sid =>
    show BatchInv (handleDisconnect sid st)
    cases hl : usersLookup st.users sid with
    | none => simp only [handleDisconnect, hl]; exact h
    | some user =>
      simp only [handleDisconnect, hl]
      unfold BatchInv at h ⊢
      simpa using h

theorem BatchInv_foldl {provider : Provider} :
    ∀ (events : List (Nat × Ev)) (st : SState), BatchInv st →
      BatchInv (events.foldl (step provider) st) := by
  intro events
  induction events with
  | nil => intro st h; exact h
  | cons e rest ih =>
    intro st h
    exact ih _ (BatchInv_step e h)

theorem BatchInv_run (provider : Provider) (events : List (Nat × Ev)) :
    BatchInv (run provider events) := by
  unfold run
  exact BatchInv_foldl events initState rfl

/-! ### Claim theorems -/

/-- C10: an inbound message event from a sender with no roster entry (one
who never joined, disconnected, or was pruned) is a complete no-op: the
returned state is the old state — history, summary, roster, pending batch,
cooldown flag, unseen counter, penalty box and timer unchanged — and the
untouched logs show that nothing was broadcast and no dispatch was made. -/
theorem C10_unknown_sender_noop (provider : Provider) (now : Nat) (sid text : String)
    (st : SState) (h : usersLookup st.users sid = none) :
    handleMessage provider now sid text st = st :=
  handleMessage_of_unknown h

/-- Witness for C10 at a concrete input: the initial state has no roster
entry for "ghost", and a message from "ghost" changes nothing. -/
theorem C10_unknown_sender_noop_witness :
    usersLookup initState.users "ghost" = none ∧
    handleMessage okProvider 3 "ghost" "hello" initState = initState :=
  ⟨rfl, C10_unknown_sender_noop okProvider 3 "ghost" "hello" initState rfl⟩

/-- C6: over every event trace, the batches snapshotted at dispatch-attempt
starts, in order, followed by the still-pending batch, are exactly the
messages accepted into `pendingMessages` in arrival order — no loss, no
duplication, no reordering; in particular each snapshot drains the batch to
empty at the moment the attempt begins, and messages arriving while a
dispatch is in flight (state Cooling) accumulate into the next batch. -/
theorem C6_batch_partition (provider : Provider) (events : List (Nat × Ev)) :
    (run provider events).snapshots.flatten ++ (run provider events).pendingMessages =
      (run provider events).acceptedLog :=
  BatchInv_run provider events

/-- C7: whenever the raw history exceeds `summarizeAfter` (with
`maxRaw ≤ summarizeAfter`), compaction issues exactly one summarization
call whose prompt is built from the prior summary and exactly the prefix
`history[0 .. len-maxRaw)`, the new raw history is exactly the suffix
`history[len-maxRaw ..]` of length exactly `maxRaw`, and on dispatch
success the new summary is the trimmed completion text. -/
theorem C7_compaction_window (maxRaw summarizeAfter : Nat) (provider : Provider)
    (now : Nat) (history : List Msg) (summary : String) (box : PBox)
    (hms : maxRaw ≤ summarizeAfter) (hlen : history.length > summarizeAfter) :
    (maybeCompactP maxRaw summarizeAfter provider now history summary box).1 =
      history.drop (history.length - maxRaw) ∧
    (maybeCompactP maxRaw summarizeAfter provider now history summary box).1.length =
      maxRaw ∧
    ((maybeCompactP maxRaw summarizeAfter provider now history summary box).2.2.2).map
        Call.prompt =
      [[scribeSystemMsg, ⟨"user", summaryPromptOf summary
        (history.take (history.length - maxRaw))⟩]] ∧
    (∀ text, (chatWithFallback provider now [scribeSystemMsg,
        ⟨"user", summaryPromptOf summary (history.take (history.length - maxRaw))⟩]
        box).1 = .success text →
      (maybeCompactP maxRaw summarizeAfter provider now history summary box).2.1 =
        strTrim text) := by
  have hmrlen : maxRaw ≤ history.length := le_of_lt (lt_of_le_of_lt hms hlen)
  have heq : maybeCompactP maxRaw summarizeAfter provider now history summary box =
      (history.drop (history.length - maxRaw),
       (summarizeHistory provider now summary box
         (history.take (history.length - maxRaw))).1,
       (summarizeHistory provider now summary box
         (history.take (history.length - maxRaw))).2.1,
       [(summarizeHistory provider now summary box
         (history.take (history.length - maxRaw))).2.2]) := by
    unfold maybeCompactP
    rw [if_pos hlen]
  refine ⟨by rw [heq], ?_, ?_, ?_⟩
  · rw [heq]
    simp only [List.length_drop]
    omega
  · rw [heq]
    unfold summarizeHistory
    cases hr : (chatWithFallback provider now [scribeSystemMsg,
        ⟨"user", summaryPromptOf summary (history.take (history.length - maxRaw))⟩]
        box).1 <;> simp [hr]
  · intro text ht
    rw [heq]
    unfold summarizeHistory
    dsimp only
    rw [ht]

/-- Witness for C7 at the spec's concrete scenario `maxRaw = 2`,
`summarizeAfter = 3`: after `m1, m2, m3, m4` compaction runs one call with
`old = [m1, m2]`, leaving raw history `[m3, m4]` of length 2, and a
successful dispatch installs the trimmed completion as the summary. -/
theorem C7_compaction_window_witness :
    ((2 : Nat) ≤ 3 ∧ ([m1, m2, m3, m4] : List Msg).length > 3) ∧
    (maybeCompactP 2 3 okProvider 9 [m1, m2, m3, m4] "" []).1 = [m3, m4] ∧
    (maybeCompactP 2 3 okProvider 9 [m1, m2, m3, m4] "" []).1.length = 2 ∧
    ((maybeCompactP 2 3 okProvider 9 [m1, m2, m3, m4] "" []).2.2.2).map Call.prompt =
      [[scribeSystemMsg, ⟨"user", summaryPromptOf "" [m1, m2]⟩]] ∧
    (maybeCompactP 2 3 okProvider 9 [m1, m2, m3, m4] "" []).2.1 =
      strTrim "Let there be light." := by
  have h := C7_compaction_window 2 3 okProvider 9 [m1, m2, m3, m4] "" []
    (by decide) (by decide)
  exact ⟨⟨by decide, by decide⟩, h.1, h.2.1, h.2.2.1,
    h.2.2.2 "Let there be light." (by decide)⟩

/-- C1 counterexample: with every model rate-limited the summarization
dispatch fails (`exhausted`), and the ConversationSummary is indeed left
unchanged — but the RawHistory is NOT what it was before the attempt: its
unconsolidated prefix of 11 messages has been trimmed away, so the same
prefix cannot be retried later.  This refutes the claim that a failed
compaction leaves the RawHistory byte-identical. -/
theorem C1_counterexample :
    (chatWithFallback rlProvider 0 [scribeSystemMsg,
      ⟨"user", summaryPromptOf "" (longHistory.take 11)⟩] []).1 =
      DispatchResult.exhausted ∧
    (maybeCompact rlProvider 0 longHistory "" []).2.1 = "" ∧
    (maybeCompact rlProvider 0 longHistory "" []).1 = longHistory.drop 11 ∧
    (maybeCompact rlProvider 0 longHistory "" []).1 ≠ longHistory :=
  ⟨by decide, by decide, by decide, by decide⟩

/-- C1 (amended): if the summarization dispatch fails, the
ConversationSummary is unchanged, but the RawHistory is still trimmed to
its last `maxRaw` entries — the unconsolidated prefix is dropped, not
deferred for retry. -/
theorem C1_failed_compaction (maxRaw summarizeAfter : Nat) (provider : Provider)
    (now : Nat) (history : List Msg) (summary : String) (box : PBox)
    (hlen : history.length > summarizeAfter)
    (hfail : ∀ text, (chatWithFallback provider now [scribeSystemMsg,
      ⟨"user", summaryPromptOf summary (history.take (history.length - maxRaw))⟩]
      box).1 ≠ .success text) :
    (maybeCompactP maxRaw summarizeAfter provider now history summary box).2.1 =
      summary ∧
    (maybeCompactP maxRaw summarizeAfter provider now history summary box).1 =
      history.drop (history.length - maxRaw) := by
  have heq : maybeCompactP maxRaw summarizeAfter provider now history summary box =
      (history.drop (history.length - maxRaw),
       (summarizeHistory provider now summary box
         (history.take (history.length - maxRaw))).1,
       (summarizeHistory provider now summary box
         (history.take (history.length - maxRaw))).2.1,
       [(summarizeHistory provider now summary box
         (history.take (history.length - maxRaw))).2.2]) := by
    unfold maybeCompactP
    rw [if_pos hlen]
  refine ⟨?_, by rw [heq]⟩
  rw [heq]
  unfold summarizeHistory
  dsimp only
  cases hr : (chatWithFallback provider now [scribeSystemMsg,
      ⟨"user", summaryPromptOf summary (history.take (history.length - maxRaw))⟩]
      box).1 with
  | success text => exact absurd hr (hfail text)
  | fatal status message => rfl
  | exhausted => rfl

/-- Witness for C1 at a concrete input: 31 messages, all models
rate-limited; the summary stays `""` and the history is trimmed to the
last 20 messages. -/
theorem C1_failed_compaction_witness :
    longHistory.length > 30 ∧
    (maybeCompactP 20 30 rlProvider 0 longHistory "" []).2.1 = "" ∧
    (maybeCompactP 20 30 rlProvider 0 longHistory "" []).1 = longHistory.drop 11 := by
  have h := C1_failed_compaction 20 30 rlProvider 0 longHistory "" [] (by decide)
    (fun text ht => by
      rw [show (chatWithFallback rlProvider 0 [scribeSystemMsg,
        ⟨"user", summaryPromptOf "" (longHistory.take (longHistory.length - 20))⟩]
        []).1 = DispatchResult.exhausted from by decide] at ht
      exact DispatchResult.noConfusion ht)
  exact ⟨by decide, h.1, h.2⟩

/-- C3 counterexample: after a command message `/secret plan` and then a
normal message, the single reply dispatch (which did invoke a model) has a
prompt containing the command text as a history turn — refuting "never
appears in any message list sent to a model".  The command was broadcast,
as the claim says. -/
theorem C3_counterexample :
    ChatMsg.mk "user" "alice: /secret plan" ∈
      ((run okProvider commandTrace).callsLog.map Call.prompt).flatten ∧
    (run okProvider commandTrace).callsLog.length = 1 ∧
    ((run okProvider commandTrace).callsLog.map Call.attempts).flatten =
      ["gpt-4.1-mini"] ∧
    Out.message ⟨"s", "alice", "/secret plan", 1⟩ ∈
      (run okProvider commandTrace).outsLog :=
  ⟨by decide, by decide, by decide, by decide⟩

/-- C3 (amended): a command message from a rostered sender is always
broadcast (and bumps the unseen counter), is never enqueued into the
pending batch and triggers no dispatch — but it IS appended to the raw
history, whence it can appear in later model prompts as a context turn. -/
theorem C3_command_visibility (provider : Provider) (now : Nat) (sid text : String)
    (st : SState) (user : UserRec) (h : usersLookup st.users sid = some user)
    (hc : strStartsWith text "/" = true) :
    handleMessage provider now sid text st =
      { st with
        users := usersSet st.users sid ⟨user.name, now⟩,
        history := st.history ++ [⟨sid, user.name, text, now⟩],
        unseenMessageCount := st.unseenMessageCount + 1,
        outsLog := st.outsLog ++ [Out.message ⟨sid, user.name, text, now⟩,
          Out.newMessagesPending (st.unseenMessageCount + 1)] } := by
  rw [handleMessage_command h hc]
  rfl

/-- Witness for C3 at a concrete input: a command from rostered "alice"
lands in history and the logs, with batch and calls untouched. -/
theorem C3_command_visibility_witness :
    handleMessage okProvider 1 "s" "/roll d20" (handleJoin 0 "s" "alice" initState) =
      { handleJoin 0 "s" "alice" initState with
        users := usersSet (handleJoin 0 "s" "alice" initState).users "s" ⟨"alice", 1⟩,
        history := [⟨"s", "alice", "/roll d20", 1⟩],
        unseenMessageCount := 1,
        outsLog := (handleJoin 0 "s" "alice" initState).outsLog ++
          [Out.message ⟨"s", "alice", "/roll d20", 1⟩, Out.newMessagesPending 1] } := by
  have h := C3_command_visibility okProvider 1 "s" "/roll d20"
    (handleJoin 0 "s" "alice" initState) ⟨"alice", 0⟩ (by decide) (by decide)
  exact h.trans (by decide)

/-- C5 counterexample: a single command message from a rostered sender
leaves the unseen counter at 1 although zero non-command messages were
accepted since the last dispatch attempt (none ever began: no snapshots,
empty accepted log) — refuting "incremented exactly on each non-command
inbound message". -/
theorem C5_counterexample :
    (run okProvider counterTrace).unseenMessageCount = 1 ∧
    strStartsWith "/roll d20" "/" = true ∧
    (run okProvider counterTrace).acceptedLog = [] ∧
    (run okProvider counterTrace).snapshots = [] :=
  ⟨by decide, by decide, by decide, by decide⟩

/-- C5 (amended): the unseen counter is incremented on every message
accepted from a rostered sender — commands included — and is reset to zero
exactly when a dispatch attempt begins; while Cooling (no attempt possible)
a non-command message leaves it at the incremented value. -/
theorem C5_unseen_counter (provider : Provider) (now : Nat) (sid text : String)
    (st : SState) (user : UserRec) :
    (usersLookup st.users sid = some user →
      ∃ l, (handleMessage provider now sid text st).outsLog =
        st.outsLog ++ [Out.message ⟨sid, user.name, text, now⟩,
          Out.newMessagesPending (st.unseenMessageCount + 1)] ++ l) ∧
    (usersLookup st.users sid = some user → strStartsWith text "/" = true →
      (handleMessage provider now sid text st).unseenMessageCount =
        st.unseenMessageCount + 1) ∧
    (st.llmCooldown = false → st.pendingMessages ≠ [] →
      (processLLMQueue provider now st).unseenMessageCount = 0) ∧
    (st.llmCooldown = true → processLLMQueue provider now st = st) ∧
    (usersLookup st.users sid = some user → strStartsWith text "/" = false →
      st.llmCooldown = true →
      (handleMessage provider now sid text st).unseenMessageCount =
        st.unseenMessageCount + 1) := by
  refine ⟨handleMessage_outsLog_extends, ?_, ?_, processLLMQueue_of_cooldown, ?_⟩
  · intro h hc
    rw [handleMessage_command h hc]
    rfl
  · intro h1 h2
    exact (processLLMQueue_attempt h1 h2).2.2.2.1
  · intro h hc hcool
    rw [handleMessage_normal h hc]
    rw [@processLLMQueue_of_cooldown provider now (enqueueMsg ⟨sid, user.name, text, now⟩
      (compactStage provider now (acceptMsg now sid user text st))) hcool]
    rfl

/-- Witness for C5 at a concrete input: a command message from the freshly
joined "alice" bumps the counter from 0 to 1. -/
theorem C5_unseen_counter_witness :
    (handleMessage okProvider 1 "s" "/roll d20"
      (handleJoin 0 "s" "alice" initState)).unseenMessageCount = 0 + 1 := by
  have h := C5_unseen_counter okProvider 1 "s" "/roll d20"
    (handleJoin 0 "s" "alice" initState) ⟨"alice", 0⟩
  exact h.2.1 (by decide) (by decide)

/-- C9 counterexample: with messages at t = 0, 5, 10 from Idle and
`LLM_INTERVAL = 20000`, the run produces TWO dispatch attempts — one at
t = 0 containing only the first message and one at t = 20000 with the other
two — not "exactly one dispatch containing all three". -/
theorem C9_counterexample :
    (run okProvider coolTrace3).snapshots =
      [[⟨"s", "alice", "Hello", 0⟩],
       [⟨"s", "alice", "Anyone there", 5⟩, ⟨"s", "alice", "Speak", 10⟩]] ∧
    (run okProvider coolTrace3).snapshots.length ≠ 1 :=
  ⟨by decide, by decide⟩

/-- C9 (amended): every dispatch attempt leaves the scheduler Cooling with
a timer of exactly `LLM_INTERVAL` scheduled; while Cooling no new attempt
starts; on expiry the state returns to Idle, idle is signalled, and a new
attempt runs immediately iff the pending batch is non-empty.  In the
t = 0, 5, 10, (12) scenario this yields two dispatch attempts: `[m(0)]`
immediately, and `[m(5), m(10), m(12)]` at t = 20000 — the t = 12 message
is indeed deferred to the t = 20000 cycle. -/
theorem C9_cooldown_cycle (provider : Provider) (now : Nat) (st : SState) :
    (st.llmCooldown = false → st.pendingMessages ≠ [] →
      (processLLMQueue provider now st).llmCooldown = true ∧
      (processLLMQueue provider now st).timerAt = some (now + LLM_INTERVAL_MS) ∧
      (processLLMQueue provider now st).snapshots =
        st.snapshots ++ [st.pendingMessages] ∧
      (processLLMQueue provider now st).pendingMessages = []) ∧
    (st.llmCooldown = true → processLLMQueue provider now st = st) ∧
    (st.pendingMessages = [] →
      timerFire provider now st =
        { st with
          llmCooldown := false,
          timerAt := none,
          outsLog := st.outsLog ++ [Out.godListening false] }) ∧
    (st.pendingMessages ≠ [] →
      (timerFire provider now st).llmCooldown = true ∧
      (timerFire provider now st).timerAt = some (now + LLM_INTERVAL_MS) ∧
      (timerFire provider now st).snapshots = st.snapshots ++ [st.pendingMessages]) ∧
    (run okProvider coolTrace).snapshots =
      [[⟨"s", "alice", "Hello", 0⟩],
       [⟨"s", "alice", "Anyone there", 5⟩, ⟨"s", "alice", "Speak", 10⟩,
        ⟨"s", "alice", "Please", 12⟩]] := by
  refine ⟨?_, processLLMQueue_of_cooldown, timerFire_no_pending, ?_, by decide⟩
  · intro h1 h2
    obtain ⟨a, b, c, _, e, _⟩ := processLLMQueue_attempt h1 h2
    exact ⟨a, b, e, c⟩
  · intro h
    obtain ⟨a, b, _, d⟩ := timerFire_pending h
    exact ⟨a, b, d⟩

/-- Witness for C9 at concrete inputs: an attempt from Idle with one
pending message enters Cooling with the timer at `now + 20000`, and a timer
expiry with an empty batch just returns to Idle. -/
theorem C9_cooldown_cycle_witness :
    (processLLMQueue okProvider 7
      { initState with pendingMessages := [⟨"s", "alice", "hi", 0⟩] }).llmCooldown =
        true ∧
    (processLLMQueue okProvider 7
      { initState with pendingMessages := [⟨"s", "alice", "hi", 0⟩] }).timerAt =
        some (7 + LLM_INTERVAL_MS) ∧
    timerFire okProvider 9 initState =
      { initState with
        llmCooldown := false,
        timerAt := none,
        outsLog := [Out.godListening false] } := by
  have h := C9_cooldown_cycle okProvider 7
    { initState with pendingMessages := [⟨"s", "alice", "hi", 0⟩] }
  have h9 := C9_cooldown_cycle okProvider 9 initState
  have ha := h.1 rfl (by decide)
  refine ⟨ha.1, ha.2.1, ?_⟩
  have h3 := h9.2.2.1 rfl
  exact h3.trans (by decide)

/-- C2 counterexample: in the `src/unnamed/part_000` revision a Fatal
failure (400, no quota wording — not RateLimited) of the first eligible
candidate does NOT propagate: the error is swallowed and the next candidate
is attempted, the call even succeeding overall. -/
theorem C2_counterexample :
    isRateLimitedErr (some 400) "Invalid request body" = false ∧
    chatWithFallbackAlt fatalFirstProvider 0 [] [] =
      (.success "All is well.", [], ["gpt-4.1-mini", "gpt-4.1-nano"]) :=
  ⟨by decide, by decide⟩

/-- C2 (amended): in `src/backend/server.js` a Fatal (neither 429 nor
quota) failure of the first eligible candidate propagates at once — no
penalty entry, no later candidate attempted; in the `src/unnamed/part_000`
revision the same failure is swallowed and the scan continues with the
remaining candidates, the penalty box unchanged. -/
theorem C2_fatal_propagation (provider : Provider) (now : Nat)
    (payload : List ChatMsg) (box box1 : PBox) (c : String) (status : Option Nat)
    (message : String) :
    (∀ l₁ l₂, MODEL_PRIORITY_LIST = l₁ ++ c :: l₂ →
      (∀ d ∈ l₁, pbGate now box d = none) →
      pbGate now box c = some box1 →
      provider c payload = .err status message →
      isRateLimitedErr status message = false →
      chatWithFallback provider now payload box = (.fatal status message, box1, [c])) ∧
    (∀ l₁ l₂, MODEL_PRIORITY_LIST_ALT = l₁ ++ c :: l₂ →
      (∀ d ∈ l₁, pbGate now box d = none) →
      pbGate now box c = some box1 →
      provider c payload = .err status message →
      isRateLimitedErr status message = false →
      chatWithFallbackAlt provider now payload box =
        ((fallbackLoopAlt provider now payload l₂ box1).1,
         (fallbackLoopAlt provider now payload l₂ box1).2.1,
         c :: (fallbackLoopAlt provider now payload l₂ box1).2.2)) := by
  constructor
  · intro l₁ l₂ hsplit hskip hg hp hrl
    unfold chatWithFallback
    rw [hsplit]
    exact fallbackLoop_first_eligible_fatal l₁ l₂ hskip hg hp hrl
  · intro l₁ l₂ hsplit hskip hg hp hrl
    have hs : status ≠ some 429 := by
      intro e
      subst e
      simp [isRateLimitedErr] at hrl
    unfold chatWithFallbackAlt
    rw [hsplit]
    exact fallbackLoopAlt_first_eligible_err_continues l₁ l₂ hskip hg hp hs

/-- Witness for C2 at a concrete input: the top-priority model failing with
a 400 makes the primary revision's dispatch end in that same fatal error
after one attempt, while the alternative revision goes on to succeed with
the second model. -/
theorem C2_fatal_propagation_witness :
    chatWithFallback fatalFirstProvider 0 [] [] =
      (.fatal (some 400) "Invalid request body", [], ["gpt-4.1-mini"]) ∧
    chatWithFallbackAlt fatalFirstProvider 0 [] [] =
      (.success "All is well.", [], ["gpt-4.1-mini", "gpt-4.1-nano"]) := by
  have h := C2_fatal_propagation fatalFirstProvider 0 [] [] [] "gpt-4.1-mini"
    (some 400) "Invalid request body"
  refine ⟨?_, ?_⟩
  · exact h.1 [] ["gpt-4.1-mini-2025-04-14", "gpt-4.1-nano",
      "gpt-4.1-nano-2025-04-14", "gpt-4o-mini", "gpt-4o-mini-2024-07-18"] rfl
      (fun d hd => absurd hd (List.not_mem_nil d)) (by decide) (by decide) (by decide)
  · have h2 := h.2 [] ["gpt-4.1-nano", "gpt-4o-mini", "gpt-4.1-mini-2025-04-14",
      "gpt-4.1-nano-2025-04-14", "gpt-4o-mini-2024-07-18"] rfl
      (fun d hd => absurd hd (List.not_mem_nil d)) (by decide) (by decide) (by decide)
    exact h2.trans (by decide)

/-- C4 counterexample: a quota-worded failure without a 429 status IS
RateLimited under the claim's (and server.js's) classification, yet the
`src/unnamed/part_000` dispatcher inserts no penalty-box entry for the
failing eligible candidate — it just moves on to the next model. -/
theorem C4_counterexample :
    isRateLimitedErr none "You exceeded your current quota." = true ∧
    chatWithFallbackAlt quotaFirstProvider 0 [] [] =
      (.success "All is well.", [], ["gpt-4.1-mini", "gpt-4.1-nano"]) ∧
    pbLookup (chatWithFallbackAlt quotaFirstProvider 0 [] []).2.1 "gpt-4.1-mini" =
      none :=
  ⟨by decide, by decide, by decide⟩

/-- C4 (amended): within one dispatch over the fixed priority list of
`src/backend/server.js`: a candidate whose penalty entry is still locked is
never invoked; the invoked models form an in-order subsequence of the list;
an invoked model that fails RateLimited (429 or quota) ends with entry
`now + PENALTY_DURATION` in the box; every invoked model before the last
came back RateLimited (the scan continues); and if even the last invoked
model was RateLimited the whole call is `exhausted`.  In the
`src/unnamed/part_000` revision the skip rule is identical but only an
HTTP 429 — not a quota-worded error — earns the penalty entry. -/
theorem C4_penalty_box_scan (provider : Provider) (now : Nat)
    (payload : List ChatMsg) (box : PBox) :
    (∀ c u, pbLookup box c = some u → now < u →
      c ∉ (chatWithFallback provider now payload box).2.2) ∧
    (chatWithFallback provider now payload box).2.2.Sublist MODEL_PRIORITY_LIST ∧
    (∀ c status message, c ∈ (chatWithFallback provider now payload box).2.2 →
      provider c payload = .err status message →
      isRateLimitedErr status message = true →
      pbLookup (chatWithFallback provider now payload box).2.1 c =
        some (now + PENALTY_DURATION_MS)) ∧
    (∀ as c, (chatWithFallback provider now payload box).2.2 = as ++ [c] →
      ∀ d ∈ as, rlOutcome provider payload d = true) ∧
    (∀ as c, (chatWithFallback provider now payload box).2.2 = as ++ [c] →
      rlOutcome provider payload c = true →
      (chatWithFallback provider now payload box).1 = .exhausted) ∧
    (∀ c u, pbLookup box c = some u → now < u →
      c ∉ (chatWithFallbackAlt provider now payload box).2.2) ∧
    (∀ c message, c ∈ (chatWithFallbackAlt provider now payload box).2.2 →
      provider c payload = .err (some 429) message →
      pbLookup (chatWithFallbackAlt provider now payload box).2.1 c =
        some (now + PENALTY_DURATION_MS)) := by
  refine ⟨fun c u h hu => fallbackLoop_skip_penalized MODEL_PRIORITY_LIST box h hu,
    fallbackLoop_attempts_sublist MODEL_PRIORITY_LIST box,
    fun c status message hmem hp hrl =>
      fallbackLoop_penalize MODEL_PRIORITY_LIST box hmem hp hrl,
    fun as c h d hd => fallbackLoop_prefix_rl MODEL_PRIORITY_LIST box as c h d hd,
    fun as c h hc => fallbackLoop_last_rl_exhausted MODEL_PRIORITY_LIST box as c h hc,
    fun c u h hu => fallbackLoopAlt_skip_penalized MODEL_PRIORITY_LIST_ALT box h hu,
    fun c message hmem hp =>
      fallbackLoopAlt_penalize_429 MODEL_PRIORITY_LIST_ALT box hmem hp⟩

/-- Witness for C4 at concrete inputs: a locked entry keeps the first model
out of the invocation list, and with every model answering 429 the first
model's final penalty entry is `now + PENALTY_DURATION`. -/
theorem C4_penalty_box_scan_witness :
    "gpt-4.1-mini" ∉ (chatWithFallback okProvider 10 [] [("gpt-4.1-mini", 50)]).2.2 ∧
    pbLookup (chatWithFallback rlProvider 10 [] []).2.1 "gpt-4.1-mini" =
      some (10 + PENALTY_DURATION_MS) := by
  have h1 := C4_penalty_box_scan okProvider 10 [] [("gpt-4.1-mini", 50)]
  have h2 := C4_penalty_box_scan rlProvider 10 [] []
  exact ⟨h1.1 "gpt-4.1-mini" 50 (by decide) (by decide),
    h2.2.2.1 "gpt-4.1-mini" (some 429) "Too Many Requests" (by decide) rfl (by decide)⟩

/-- C8 counterexample: an entry set to unlock at `t0 + PENALTY_DURATION`
already admits the model at exactly that instant — it is invoked and its
entry is removed — so the model does NOT stay locked strictly beyond
`t0 + PENALTY_DURATION`. -/
theorem C8_counterexample :
    (chatWithFallback okProvider (5 + PENALTY_DURATION_MS) []
      [("gpt-4.1-mini", 5 + PENALTY_DURATION_MS)]).2.2 = ["gpt-4.1-mini"] ∧
    pbLookup (chatWithFallback okProvider (5 + PENALTY_DURATION_MS) []
      [("gpt-4.1-mini", 5 + PENALTY_DURATION_MS)]).2.1 "gpt-4.1-mini" = none :=
  ⟨by decide, by decide⟩

/-- C8 (amended): for a penalty entry with unlock time
`t0 + PENALTY_DURATION`, any dispatch before that instant skips the model
entirely, and any lookup at or after that instant treats the model as
eligible and removes its entry as a side effect — so the entry expires at
exactly `t0 + PENALTY_DURATION`, not strictly after it. -/
theorem C8_penalty_expiry (provider : Provider) (now t0 : Nat)
    (payload : List ChatMsg) (box : PBox) (c : String)
    (h : pbLookup box c = some (t0 + PENALTY_DURATION_MS)) :
    (now < t0 + PENALTY_DURATION_MS →
      c ∉ (chatWithFallback provider now payload box).2.2) ∧
    (t0 + PENALTY_DURATION_MS ≤ now →
      pbGate now box c = some (pbErase box c)) := by
  constructor
  · intro hn
    exact fallbackLoop_skip_penalized MODEL_PRIORITY_LIST box h hn
  · intro hn
    rw [pbGate_entry h, if_neg (by omega)]

/-- Witness for C8 at concrete inputs: at `t0 + PENALTY_DURATION - 1` the
penalized model is not invoked; at `t0 + PENALTY_DURATION + 1` the gate
admits it and deletes its entry. -/
theorem C8_penalty_expiry_witness :
    "gpt-4o-mini" ∉ (chatWithFallback okProvider (5 + PENALTY_DURATION_MS - 1) []
      [("gpt-4o-mini", 5 + PENALTY_DURATION_MS)]).2.2 ∧
    pbGate (5 + PENALTY_DURATION_MS + 1)
      [("gpt-4o-mini", 5 + PENALTY_DURATION_MS)] "gpt-4o-mini" = some [] := by
  have ha := C8_penalty_expiry okProvider (5 + PENALTY_DURATION_MS - 1) 5 []
    [("gpt-4o-mini", 5 + PENALTY_DURATION_MS)] "gpt-4o-mini" (by decide)
  have hb := C8_penalty_expiry okProvider (5 + PENALTY_DURATION_MS + 1) 5 []
    [("gpt-4o-mini", 5 + PENALTY_DURATION_MS)] "gpt-4o-mini" (by decide)
  exact ⟨ha.1 (by omega), (hb.2 (by omega)).trans (by decide)⟩

end GodTelephone
